import Mathlib

/-!
Verification of the Veris document ingestion and summarization pipeline.

The repository ships the React client (`frontend/src/App.jsx`); the FastAPI
backend (Extractor, TextNormalizer, SummarizationOrchestrator,
IngestionGateway) is described by the specification.  Client-side
definitions below are shallow embeddings of the code in `App.jsx`;
backend definitions are modelled from the spec, as noted in their
doc comments.
-/

namespace Veris

/-! ## TextNormalizer -/

/-- Modelled from the spec: the backend TextNormalizer's notion of a
non-printable control character (the backend source is not in the
repository).  The newline is excluded: it encodes a paragraph break,
which normalization preserves. -/
def isControl (c : Char) : Bool := (c.toNat < 32 || c.toNat == 127) && c != '\n'

/-- Modelled from the spec: whitespace characters relevant to the
TextNormalizer (space, tab, carriage return, newline). -/
def isWs (c : Char) : Bool := c == ' ' || c == '\t' || c == '\r' || c == '\n'

/-- Modelled from the spec: strip non-printable control characters. -/
def stripControl (l : List Char) : List Char := l.filter (fun c => !(isControl c))

/-- Modelled from the spec: the single character replacing two adjacent
whitespace characters: a paragraph break survives, anything else becomes
a space. -/
def mergeWs (a b : Char) : Char := if a == '\n' || b == '\n' then '\n' else ' '

/-- Modelled from the spec: collapse each run of whitespace to a single
space, except that a run containing a paragraph break collapses to a
single newline. -/
def collapse : List Char → List Char
  | [] => []
  | a :: rest =>
    match collapse rest with
    | [] => [a]
    | b :: t => if isWs a && isWs b then mergeWs a b :: t else a :: b :: t

/-- Modelled from the spec: trim leading/trailing whitespace. -/
def trimWs (l : List Char) : List Char :=
  (l.dropWhile isWs).rdropWhile isWs

/-- Modelled from the spec: the TextNormalizer pipeline on character
lists: strip control characters, collapse whitespace runs, trim. -/
def normalizeChars (l : List Char) : List Char := trimWs (collapse (stripControl l))

/-- Modelled from the spec: `normalize(rawText) -> cleanText`, the
backend TextNormalizer. -/
def normalize (s : String) : String := String.mk (normalizeChars s.data)

/-- JavaScript's `String.prototype.trim`, as used by the client and the
gateway's emptiness check, over the same whitespace set. -/
def trimJs (s : String) : String :=
  String.mk (trimWs s.data)

/-! ## Extractor -/

/-- The recognized filetypes: exactly `pdf` and `docx`. -/
inductive Filetype where
  | pdf
  | docx
deriving DecidableEq, Repr

/-- Failures of the Extractor. -/
inductive ExtractError where
  | unsupportedFormat (ext : String)
  | extractionFailed (filename : String) (cause : String)
deriving DecidableEq, Repr

/-- `ExtractedText`: normalized text, filetype, and page count
(PDF only). -/
structure ExtractedText where
  text : String
  filetype : Filetype
  pageCount : Option Nat
deriving DecidableEq, Repr

/-- Modelled from the spec: what parsing the raw bytes of an upload
yields (the backend source is not in the repository).  A PDF is a list
of physical pages, each carrying its extractable text (`""` when the
page has no text layer); a DOCX is its paragraphs in document order;
`unparsable` stands for corrupted bytes. -/
inductive FileContent where
  | pdf (pages : List String)
  | docx (paragraphs : List String)
  | unparsable (cause : String)
deriving DecidableEq, Repr

/-- One uploaded file: declared filename plus the parse of its bytes. -/
structure UploadFile where
  filename : String
  content : FileContent
deriving DecidableEq, Repr

/-- The lowercased extension after the last dot of a filename
(empty when there is no dot). -/
def extOf (filename : String) : String :=
  if filename.data.contains '.' then
    String.mk
      (((filename.data.reverse.takeWhile (fun c => c != '.')).reverse).map Char.toLower)
  else ""

/-- Modelled from the spec: filetype detection from the declared
extension; recognized types are exactly `pdf` and `docx`. -/
def detectType (ext : String) : Option Filetype :=
  if ext = "pdf" then some .pdf else if ext = "docx" then some .docx else none

/-- Join text fragments with a separator character sequence. -/
def joinWith (sep : List Char) : List (List Char) → List Char
  | [] => []
  | [p] => p
  | p :: ps => p ++ sep ++ joinWith sep ps

/-- Modelled from the spec: per-page PDF text concatenated with a page
boundary marker (a newline). -/
def joinPages (pages : List String) : String :=
  String.mk (joinWith ['\n'] (pages.map (fun p => p.data)))

/-- Modelled from the spec: DOCX paragraphs joined with newline
separators. -/
def joinParagraphs (paragraphs : List String) : String :=
  String.mk (joinWith ['\n'] (paragraphs.map (fun p => p.data)))

/-- Modelled from the spec: `extract(rawBytes, filename) ->
ExtractedText`, the backend Extractor.  Unrecognized extensions fail
with `UnsupportedFormat` carrying the extension; unparsable bytes fail
with `ExtractionFailed`; PDF extraction records the physical page count,
DOCX extraction leaves it `none`; the produced text is normalized. -/
def extract (f : UploadFile) : Except ExtractError ExtractedText :=
  match detectType (extOf f.filename) with
  | none => .error (.unsupportedFormat (extOf f.filename))
  | some .pdf =>
    match f.content with
    | .pdf pages =>
      .ok { text := normalize (joinPages pages), filetype := .pdf,
            pageCount := some pages.length }
    | _ => .error (.extractionFailed f.filename "could not parse file as PDF")
  | some .docx =>
    match f.content with
    | .docx paragraphs =>
      .ok { text := normalize (joinParagraphs paragraphs), filetype := .docx,
            pageCount := none }
    | _ => .error (.extractionFailed f.filename "could not parse file as DOCX")

/-! ## JSON values -/

/-- JavaScript/JSON values, including `undefined` for a missing field, as
both the service response and the client's `data` objects are dynamic. -/
inductive Json where
  | undefined
  | null
  | bool (b : Bool)
  | num (n : Int)
  | str (s : String)
  | arr (elems : List Json)
  | obj (fields : List (String × Json))

/-- Field access `value.key`: `undefined` on a missing field or a
non-object. -/
def getField (v : Json) (key : String) : Json :=
  match v with
  | .obj fields => (fields.lookup key).getD .undefined
  | _ => .undefined

/-- `Array.isArray`. -/
def isArr : Json → Bool
  | .arr _ => true
  | _ => false

/-- JavaScript truthiness. -/
def truthy : Json → Bool
  | .undefined => false
  | .null => false
  | .bool b => b
  | .num n => n != 0
  | .str s => s != ""
  | .arr _ => true
  | .obj _ => true

/-! ## SummarizationOrchestrator -/

/-- A clause record: a type label and a snippet. -/
structure ClauseRecord where
  type : String
  snippet : String

/-- `SummarizationResult`: a summary string and an ordered clause
list (a list, so never null). -/
structure SummarizationResult where
  summary : String
  clauses : List ClauseRecord

/-- Modelled from the spec: parse one clause entry of the service
response; entries missing `type` or `snippet` are malformed. -/
def parseClause (v : Json) : Option ClauseRecord :=
  match getField v "type", getField v "snippet" with
  | .str t, .str s => some { type := t, snippet := s }
  | _, _ => none

/-- Modelled from the spec: parse the `clauses` field of the service
response; `none` when it is not an array, dropping malformed entries
otherwise. -/
def parseClauses (v : Json) : Option (List ClauseRecord) :=
  match v with
  | .arr xs => some (xs.filterMap parseClause)
  | _ => none

/-- Modelled from the spec: the outcome of the bounded call to the
external generative-language service.  `ok` carries the raw response
text and its structured parse when the text is valid JSON (`none`
otherwise); `timeout` covers an unreachable service and an exceeded
timeout; `httpStatus` is a transport-level HTTP error. -/
inductive ServiceOutcome where
  | ok (raw : String) (parsed : Option Json)
  | timeout
  | httpStatus (code : Nat)

/-- Failures of the summarize operation. -/
inductive SummarizeError where
  | emptyInput
  | serviceUnavailable (retryable : Bool)
deriving DecidableEq, Repr

/-- Modelled from the spec: tolerant parsing of the service response.
With no structured parse the whole raw text becomes the summary and the
clause list is empty; with a structured parse the summary falls back to
the raw text when the `summary` field is not a string, and the clauses
fall back to `[]` when the `clauses` field does not parse. -/
def interpretResponse (raw : String) (parsed : Option Json) : SummarizationResult :=
  match parsed with
  | none => { summary := raw, clauses := [] }
  | some j =>
    { summary := match getField j "summary" with
        | .str s => s
        | _ => raw
      clauses := (parseClauses (getField j "clauses")).getD [] }

/-- Modelled from the spec: `summarize(text, jurisdiction) ->
SummarizationResult`, the backend SummarizationOrchestrator, as a
function of the service outcome.  Rejects with `EmptyInput` when the
trimmed text is empty — before any service call, so the result is the
same for every outcome; timeouts map to `ServiceUnavailable` with
`retryable = true`, HTTP errors to `retryable` true exactly for 5xx. -/
def summarize (text jurisdiction : String) (svc : ServiceOutcome) :
    Except SummarizeError SummarizationResult :=
  if trimJs text = "" then .error .emptyInput
  else
    match svc with
    | .timeout => .error (.serviceUnavailable true)
    | .httpStatus code => .error (.serviceUnavailable (decide (500 ≤ code)))
    | .ok raw parsed => .ok (interpretResponse raw parsed)

/-! ## IngestionGateway -/

/-- The body of `POST /api/summarize`: required text, optional
jurisdiction. -/
structure SummarizeBody where
  text : String
  jurisdiction : Option String

/-- Modelled from the spec: the jurisdiction actually used —
the supplied one, defaulting to `"General"` when absent. -/
def effectiveJurisdiction (b : SummarizeBody) : String :=
  b.jurisdiction.getD "General"

/-- An HTTP response: status code and JSON body. -/
structure HttpResponse where
  status : Nat
  body : Json

/-- Modelled from the spec: `POST /api/upload`.  A missing file is a
client error; `UnsupportedFormat` and `ExtractionFailed` map to client
errors carrying a `detail` message; success returns filename, filetype,
text, and `pages` (null for DOCX). -/
def uploadHandler (f : Option UploadFile) : HttpResponse :=
  match f with
  | none => { status := 400, body := .obj [("detail", .str "No file provided")] }
  | some f =>
    match extract f with
    | .error (.unsupportedFormat ext) =>
      { status := 415,
        body := .obj [("detail", .str ("Unsupported file format: ." ++ ext))] }
    | .error (.extractionFailed name cause) =>
      { status := 422,
        body := .obj [("detail", .str ("Failed to extract text from " ++ name ++ ": " ++ cause))] }
    | .ok t =>
      { status := 200,
        body := .obj
          [("filename", .str f.filename),
           ("filetype", .str (match t.filetype with | .pdf => "pdf" | .docx => "docx")),
           ("text", .str t.text),
           ("pages", match t.pageCount with | some n => .num n | none => .null)] }

/-! ## Client (shallow embedding of `App.jsx`) -/

/-- The client's `meta` state: the three fields copied from the upload
response's dynamic `data` object. -/
structure ClientMeta where
  filename : Json
  filetype : Json
  pages : Json

/-- The React component state of `App`. -/
structure AppState where
  file : Option String
  text : String
  meta : Option ClientMeta
  loading : Bool
  error : String
  jurisdiction : String
  sumLoading : Bool
  summary : Json
  clauses : List Json
  sumError : String

/-- The `useState` initial values of `App`. -/
def initialState : AppState :=
  { file := none, text := "", meta := none, loading := false, error := "",
    jurisdiction := "General", sumLoading := false, summary := .str "",
    clauses := [], sumError := "" }

/-- `handleFileChange`: store the selected file and reset all result
state. -/
def handleFileChange (s : AppState) (f : Option String) : AppState :=
  { s with file := f, text := "", meta := none, error := "",
           summary := .str "", clauses := [], sumError := "" }

/-- What `handleSummarize` does before any network activity: either
refuse with an error message (no request issued) or issue a request
with the given body. -/
inductive SummarizeStep where
  | refuse (message : String)
  | request (body : SummarizeBody)

/-- `handleSummarize` up to its fetch: refuse when the held text trims
to empty, otherwise send `{ text, jurisdiction }` with the state's
values verbatim. -/
def handleSummarize (s : AppState) : SummarizeStep :=
  if trimJs s.text = "" then
    .refuse "No text available. Please upload a document first."
  else
    .request { text := s.text, jurisdiction := some s.jurisdiction }

/-- `data.summary || ""`. -/
def jsOrEmptyString (v : Json) : Json := if truthy v then v else .str ""

/-- `Array.isArray(data.clauses) ? data.clauses : []`. -/
def jsArrayOrNil : Json → List Json
  | .arr xs => xs
  | _ => []

/-- The client's state update on a successful summarize response
(`setSummary`, `setClauses`, and the `finally` clearing of
`sumLoading`). -/
def applySummarizeSuccess (s : AppState) (data : Json) : AppState :=
  { s with summary := jsOrEmptyString (getField data "summary"),
           clauses := jsArrayOrNil (getField data "clauses"),
           sumLoading := false }

/-- The render guard for the page count:
`meta.filetype === "pdf" && meta.pages != null` (loose inequality, so
false exactly for `null` and `undefined`). -/
def showsPageCount (m : ClientMeta) : Bool :=
  (match m.filetype with | .str s => s == "pdf" | _ => false) &&
  (match m.pages with | .null => false | .undefined => false | _ => true)

/-! ## Normalization invariants -/

/-- No two adjacent whitespace characters. -/
def NoAdjWs (l : List Char) : Prop :=
  l.Chain' (fun a b => isWs a = false ∨ isWs b = false)

/-- No non-printable control characters. -/
def NoControl (l : List Char) : Prop := ∀ c ∈ l, isControl c = false

/-! ## Lemmas about the TextNormalizer -/

theorem mergeWs_ws (a b : Char) : isWs (mergeWs a b) = true := by
  unfold mergeWs
  split <;> decide

theorem collapse_cons_of_nil {a : Char} {rest : List Char}
    (hc : collapse rest = []) : collapse (a :: rest) = [a] := by
  unfold collapse
  rw [hc]

theorem collapse_cons_of_cons {a b : Char} {rest t : List Char}
    (hc : collapse rest = b :: t) :
    collapse (a :: rest) =
      if isWs a && isWs b then mergeWs a b :: t else a :: b :: t := by
  unfold collapse
  rw [hc]

theorem collapse_noAdjWs (l : List Char) : NoAdjWs (collapse l) := by
  unfold NoAdjWs
  induction l with
  | nil => simp [collapse]
  | cons a rest ih =>
    cases hc : collapse rest with
    | nil => rw [collapse_cons_of_nil hc]; simp
    | cons b t =>
      rw [hc] at ih
      rw [collapse_cons_of_cons hc]
      by_cases h : (isWs a && isWs b) = true
      · rw [if_pos h]
        have hb : isWs b = true := by
          have h' : isWs a = true ∧ isWs b = true := by simpa using h
          exact h'.2
        rw [List.chain'_cons'] at ih ⊢
        refine ⟨fun y hy => ?_, ih.2⟩
        rcases ih.1 y hy with h1 | h1
        · rw [hb] at h1; cases h1
        · exact Or.inr h1
      · rw [if_neg h]
        rw [List.chain'_cons]
        refine ⟨?_, ih⟩
        by_cases h1 : isWs a = true
        · by_cases h2 : isWs b = true
          · exact absurd (by rw [h1, h2]; rfl) h
          · exact Or.inr (Bool.eq_false_iff.mpr h2)
        · exact Or.inl (Bool.eq_false_iff.mpr h1)

theorem collapse_eq_self : ∀ (l : List Char), NoAdjWs l → collapse l = l := by
  intro l
  induction l with
  | nil => intro _; rfl
  | cons a rest ih =>
    intro h
    cases rest with
    | nil => rfl
    | cons b t =>
      have hbt : NoAdjWs (b :: t) := h.tail
      have hr : collapse (b :: t) = b :: t := ih hbt
      rw [collapse_cons_of_cons hr]
      have hab : isWs a = false ∨ isWs b = false := (List.chain'_cons.mp h).1
      have hfalse : (isWs a && isWs b) = false := by
        rcases hab with h1 | h1 <;> simp [h1]
      rw [if_neg (by rw [hfalse]; exact Bool.false_ne_true)]

theorem mem_collapse {c : Char} : ∀ {l : List Char}, c ∈ collapse l →
    c ∈ l ∨ c = '\n' ∨ c = ' ' := by
  intro l
  induction l with
  | nil => intro h; simp [collapse] at h
  | cons a rest ih =>
    intro h
    cases hc : collapse rest with
    | nil =>
      rw [collapse_cons_of_nil hc] at h
      simp only [List.mem_singleton] at h
      subst h
      exact Or.inl (List.mem_cons_self c rest)
    | cons b t =>
      rw [collapse_cons_of_cons hc] at h
      by_cases hw : (isWs a && isWs b) = true
      · rw [if_pos hw] at h
        rcases List.mem_cons.mp h with h1 | h1
        · subst h1
          unfold mergeWs
          split
          · exact Or.inr (Or.inl rfl)
          · exact Or.inr (Or.inr rfl)
        · have hm : c ∈ collapse rest := by
            rw [hc]; exact List.mem_cons_of_mem b h1
          rcases ih hm with h2 | h2
          · exact Or.inl (List.mem_cons_of_mem a h2)
          · exact Or.inr h2
      · rw [if_neg hw] at h
        rcases List.mem_cons.mp h with h1 | h1
        · subst h1
          exact Or.inl (List.mem_cons_self c rest)
        · have hm : c ∈ collapse rest := by rw [hc]; exact h1
          rcases ih hm with h2 | h2
          · exact Or.inl (List.mem_cons_of_mem a h2)
          · exact Or.inr h2

theorem collapse_length : ∀ (l : List Char), (collapse l).length ≤ l.length := by
  intro l
  induction l with
  | nil => simp [collapse]
  | cons a rest ih =>
    cases hc : collapse rest with
    | nil =>
      rw [collapse_cons_of_nil hc]
      simp
    | cons b t =>
      rw [hc] at ih
      rw [collapse_cons_of_cons hc]
      by_cases hw : (isWs a && isWs b) = true
      · rw [if_pos hw]
        simp only [List.length_cons] at ih ⊢
        omega
      · rw [if_neg hw]
        simp only [List.length_cons] at ih ⊢
        omega

theorem trimWs_sublist (l : List Char) : List.Sublist (trimWs l) l :=
  (( List.rdropWhile_prefix isWs (l.dropWhile isWs)).sublist).trans
    (List.dropWhile_sublist isWs)

theorem trimWs_length (l : List Char) : (trimWs l).length ≤ l.length :=
  (trimWs_sublist l).length_le

theorem trimWs_subset (l : List Char) : trimWs l ⊆ l :=
  (trimWs_sublist l).subset

theorem trimWs_noAdjWs {l : List Char} (h : NoAdjWs l) : NoAdjWs (trimWs l) :=
  List.Chain'.prefix (h.suffix (List.dropWhile_suffix isWs))
    ( List.rdropWhile_prefix isWs (l.dropWhile isWs))

theorem dropWhile_eq_cons_head_false {p : Char → Bool} :
    ∀ {l : List Char} {c : Char} {cs : List Char},
      l.dropWhile p = c :: cs → p c = false := by
  intro l
  induction l with
  | nil =>
    intro c cs h
    simp [List.dropWhile] at h
  | cons a t ih =>
    intro c cs h
    by_cases hp : p a = true
    · rw [List.dropWhile_cons_of_pos hp] at h
      exact ih h
    · rw [List.dropWhile_cons_of_neg hp] at h
      injection h with h1 _
      subst h1
      exact Bool.eq_false_iff.mpr hp

theorem dropWhile_trimWs (l : List Char) :
    (trimWs l).dropWhile isWs = trimWs l := by
  obtain ⟨t, ht⟩ := List.rdropWhile_prefix isWs (l.dropWhile isWs)
  cases he : trimWs l with
  | nil => rfl
  | cons c cs =>
    apply List.dropWhile_cons_of_neg
    have hd : l.dropWhile isWs = c :: (cs ++ t) := by
      rw [← ht]
      unfold trimWs at he
      rw [he]
      simp
    have := dropWhile_eq_cons_head_false hd
    rw [this]
    exact Bool.false_ne_true

theorem trimWs_trimWs (l : List Char) : trimWs (trimWs l) = trimWs l := by
  show ((trimWs l).dropWhile isWs).rdropWhile isWs = trimWs l
  rw [dropWhile_trimWs]
  exact List.rdropWhile_idempotent isWs (l.dropWhile isWs)

theorem stripControl_noControl (l : List Char) : NoControl (stripControl l) := by
  intro c hc
  have := List.mem_filter.mp hc
  simpa using this.2

theorem stripControl_eq_self {l : List Char} (h : NoControl l) :
    stripControl l = l := by
  apply List.filter_eq_self.mpr
  intro a ha
  simpa using h a ha

theorem stripControl_length (l : List Char) :
    (stripControl l).length ≤ l.length :=
  (List.filter_sublist l).length_le

theorem stripControl_subset (l : List Char) : stripControl l ⊆ l :=
  (List.filter_sublist l).subset

theorem collapse_noControl {l : List Char} (h : NoControl l) :
    NoControl (collapse l) := by
  intro c hc
  rcases mem_collapse hc with h1 | h1 | h1
  · exact h c h1
  · subst h1; decide
  · subst h1; decide

theorem trimWs_noControl {l : List Char} (h : NoControl l) :
    NoControl (trimWs l) :=
  fun c hc => h c (trimWs_subset l hc)

theorem collapse_all_ws {l : List Char} (h : ∀ c ∈ l, isWs c = true) :
    ∀ c ∈ collapse l, isWs c = true := by
  intro c hc
  rcases mem_collapse hc with h1 | h1 | h1
  · exact h c h1
  · subst h1; decide
  · subst h1; decide

theorem trimWs_eq_nil_of_all_ws {l : List Char} (h : ∀ c ∈ l, isWs c = true) :
    trimWs l = [] := by
  unfold trimWs
  rw [List.dropWhile_eq_nil_iff.mpr h]
  rfl

theorem normalizeChars_noControl (l : List Char) :
    NoControl (normalizeChars l) :=
  trimWs_noControl (collapse_noControl (stripControl_noControl l))

theorem normalizeChars_noAdjWs (l : List Char) : NoAdjWs (normalizeChars l) :=
  trimWs_noAdjWs (collapse_noAdjWs (stripControl l))

theorem normalizeChars_idem (l : List Char) :
    normalizeChars (normalizeChars l) = normalizeChars l := by
  show trimWs (collapse (stripControl (normalizeChars l))) = normalizeChars l
  rw [stripControl_eq_self (normalizeChars_noControl l),
      collapse_eq_self (normalizeChars l) (normalizeChars_noAdjWs l)]
  exact trimWs_trimWs (collapse (stripControl l))

theorem normalizeChars_length (l : List Char) :
    (normalizeChars l).length ≤ l.length :=
  le_trans (trimWs_length (collapse (stripControl l)))
    (le_trans (collapse_length (stripControl l)) (stripControl_length l))

theorem normalizeChars_all_ws {l : List Char} (h : ∀ c ∈ l, isWs c = true) :
    normalizeChars l = [] := by
  unfold normalizeChars
  apply trimWs_eq_nil_of_all_ws
  apply collapse_all_ws
  intro c hc
  exact h c (stripControl_subset l hc)

theorem joinWith_newline_mem {ps : List (List Char)} :
    (∀ p ∈ ps, p = []) → ∀ c ∈ joinWith ['\n'] ps, c = '\n' := by
  induction ps with
  | nil =>
    intro _ c hc
    simp [joinWith] at hc
  | cons p qs ih =>
    intro h c hc
    cases qs with
    | nil =>
      rw [show joinWith ['\n'] [p] = p from rfl] at hc
      rw [h p (List.mem_cons_self p [])] at hc
      simp at hc
    | cons q rs =>
      rw [show joinWith ['\n'] (p :: q :: rs) =
            p ++ ['\n'] ++ joinWith ['\n'] (q :: rs) from rfl] at hc
      rw [h p (List.mem_cons_self p (q :: rs))] at hc
      simp only [List.nil_append, List.cons_append, List.singleton_append] at hc
      rcases List.mem_cons.mp hc with h1 | h1
      · exact h1
      · exact ih (fun r hr => h r (List.mem_cons_of_mem p hr)) c h1

theorem normalize_joinPages_all_empty {pages : List String}
    (h : ∀ p ∈ pages, p = "") : normalize (joinPages pages) = "" := by
  show String.mk (normalizeChars (joinPages pages).data) = ""
  have hall : ∀ q ∈ pages.map (fun p => p.data), q = [] := by
    intro q hq
    rcases List.mem_map.mp hq with ⟨p, hp, hpq⟩
    rw [← hpq, h p hp]
  have hz : normalizeChars (joinPages pages).data = [] := by
    show normalizeChars (joinWith ['\n'] (pages.map (fun p => p.data))) = []
    apply normalizeChars_all_ws
    intro c hc
    rw [joinWith_newline_mem hall c hc]
    decide
  rw [hz]

theorem parseClauses_not_arr {v : Json} (h : isArr v = false) :
    parseClauses v = none := by
  cases v <;> first | rfl | (exact absurd h (by simp [isArr]))

theorem jsArrayOrNil_not_arr {v : Json} (h : isArr v = false) :
    jsArrayOrNil v = [] := by
  cases v <;> first | rfl | (exact absurd h (by simp [isArr]))

/-! ## Claims -/

/-- Claim C1: for every input text that is empty or whitespace-only after
trimming and every jurisdiction, `summarize` fails with `EmptyInput`
whatever the service outcome (the result does not depend on the service,
so no summarization request is issued); in the client, `handleSummarize`
refuses to call the endpoint whenever the held text trims to empty. -/
theorem c1_empty_input_rejected (t j : String) (svc : ServiceOutcome)
    (s : AppState) (ht : trimJs t = "") (hs : trimJs s.text = "") :
    summarize t j svc = .error .emptyInput ∧
    handleSummarize s =
      .refuse "No text available. Please upload a document first." := by
  constructor
  · unfold summarize
    rw [if_pos ht]
  · unfold handleSummarize
    rw [if_pos hs]

theorem c1_empty_input_rejected_witness :
    trimJs "   " = "" ∧
    trimJs (AppState.text { initialState with text := " \t " }) = "" ∧
    (summarize "   " "Nepal" ServiceOutcome.timeout = .error .emptyInput ∧
     handleSummarize { initialState with text := " \t " } =
       .refuse "No text available. Please upload a document first.") :=
  ⟨by decide, by decide,
   c1_empty_input_rejected "   " "Nepal" ServiceOutcome.timeout
     { initialState with text := " \t " } (by decide) (by decide)⟩

/-- Claim C2: for every upstream service response, even one missing the
clause field or otherwise malformed, `summarize` does not fail: the
clauses component is a list that is empty whenever structured clauses
did not parse, and the summary falls back to the raw service text (or
stays a string); in the client, the clauses state becomes `[]` whenever
the response's clauses value is not an array. -/
theorem c2_malformed_response_tolerated (t jur raw : String)
    (p : Option Json) (j v : Json) (ht : trimJs t ≠ "")
    (hj : isArr (getField j "clauses") = false) (hv : isArr v = false) :
    summarize t jur (.ok raw p) = .ok (interpretResponse raw p) ∧
    (interpretResponse raw none).summary = raw ∧
    (interpretResponse raw none).clauses = [] ∧
    (interpretResponse raw (some j)).clauses = [] ∧
    jsArrayOrNil v = [] := by
  refine ⟨?_, rfl, rfl, ?_, jsArrayOrNil_not_arr hv⟩
  · unfold summarize
    rw [if_neg ht]
  · show (parseClauses (getField j "clauses")).getD [] = []
    rw [parseClauses_not_arr hj]
    rfl

theorem c2_malformed_response_tolerated_witness :
    trimJs "Tenant shall pay rent." ≠ "" ∧
    isArr (getField (Json.obj [("summary", Json.str "ok")]) "clauses") = false ∧
    isArr Json.null = false ∧
    (summarize "Tenant shall pay rent." "General" (.ok "raw text" none) =
        .ok (interpretResponse "raw text" none) ∧
     (interpretResponse "raw text" none).summary = "raw text" ∧
     (interpretResponse "raw text" none).clauses = [] ∧
     (interpretResponse "raw text"
        (some (Json.obj [("summary", Json.str "ok")]))).clauses = [] ∧
     jsArrayOrNil Json.null = []) :=
  ⟨by decide, rfl, rfl,
   c2_malformed_response_tolerated "Tenant shall pay rent." "General"
     "raw text" none (Json.obj [("summary", Json.str "ok")]) Json.null
     (by decide) rfl rfl⟩

/-- Claim C3: `normalize` is idempotent, and `normalize` of the empty
string is the empty string. -/
theorem c3_normalize_idempotent (x : String) :
    normalize (normalize x) = normalize x ∧ normalize "" = "" :=
  ⟨congrArg String.mk (normalizeChars_idem x.data), rfl⟩

/-- Claim C6: a summarize request with no jurisdiction uses
`"General"`; the client initializes its jurisdiction state to
`"General"` and passes the chosen value through verbatim in the
request body. -/
theorem c6_jurisdiction_default (b : SummarizeBody) (s : AppState)
    (hb : b.jurisdiction = none) (hs : trimJs s.text ≠ "") :
    effectiveJurisdiction b = "General" ∧
    initialState.jurisdiction = "General" ∧
    handleSummarize s =
      .request { text := s.text, jurisdiction := some s.jurisdiction } := by
  refine ⟨?_, rfl, ?_⟩
  · unfold effectiveJurisdiction
    rw [hb]
    rfl
  · unfold handleSummarize
    rw [if_neg hs]

theorem c6_jurisdiction_default_witness :
    SummarizeBody.jurisdiction ⟨"Tenant shall pay rent.", none⟩ = none ∧
    trimJs (AppState.text { initialState with text := "doc" }) ≠ "" ∧
    (effectiveJurisdiction ⟨"Tenant shall pay rent.", none⟩ = "General" ∧
     initialState.jurisdiction = "General" ∧
     handleSummarize { initialState with text := "doc" } =
       .request { text := "doc", jurisdiction := some "General" }) :=
  ⟨rfl, by decide,
   c6_jurisdiction_default ⟨"Tenant shall pay rent.", none⟩
     { initialState with text := "doc" } rfl (by decide)⟩

/-- Claim C7: when the external service times out (or is unreachable,
which surfaces the same way) the summarize operation fails with
`ServiceUnavailable` and a `retryable` flag that is true; a 5xx
transport error is retryable, a 4xx one is not. -/
theorem c7_service_unavailable (t j : String) (c : Nat)
    (ht : trimJs t ≠ "") :
    summarize t j .timeout = .error (.serviceUnavailable true) ∧
    (400 ≤ c → c < 500 →
      summarize t j (.httpStatus c) = .error (.serviceUnavailable false)) ∧
    (500 ≤ c →
      summarize t j (.httpStatus c) = .error (.serviceUnavailable true)) := by
  refine ⟨?_, ?_, ?_⟩
  · unfold summarize
    rw [if_neg ht]
  · intro _ h2
    unfold summarize
    rw [if_neg ht]
    show Except.error (SummarizeError.serviceUnavailable (decide (500 ≤ c))) =
      Except.error (SummarizeError.serviceUnavailable false)
    rw [decide_eq_false (by omega)]
  · intro h1
    unfold summarize
    rw [if_neg ht]
    show Except.error (SummarizeError.serviceUnavailable (decide (500 ≤ c))) =
      Except.error (SummarizeError.serviceUnavailable true)
    rw [decide_eq_true h1]

theorem c7_service_unavailable_witness :
    trimJs "Tenant shall pay rent." ≠ "" ∧
    (summarize "Tenant shall pay rent." "General" .timeout =
        .error (.serviceUnavailable true) ∧
     (400 ≤ 404 → 404 < 500 →
       summarize "Tenant shall pay rent." "General" (.httpStatus 404) =
         .error (.serviceUnavailable false)) ∧
     (500 ≤ 404 →
       summarize "Tenant shall pay rent." "General" (.httpStatus 404) =
         .error (.serviceUnavailable true))) :=
  ⟨by decide, c7_service_unavailable "Tenant shall pay rent." "General" 404 (by decide)⟩

/-- Claim C9: normalization never increases string length. -/
theorem c9_normalize_shrinks (x : String) :
    (normalize x).length ≤ x.length := by
  obtain ⟨d⟩ := x
  exact normalizeChars_length d

/-- Claim C10: `handleFileChange` resets every result field of a
previous request to its initial value: text, meta, error, summary,
clauses and sumError, so stale output is never kept for a newly
selected file. -/
theorem c10_file_change_resets (s : AppState) (f : Option String) :
    (handleFileChange s f).file = f ∧
    (handleFileChange s f).text = initialState.text ∧
    (handleFileChange s f).meta = initialState.meta ∧
    (handleFileChange s f).error = initialState.error ∧
    (handleFileChange s f).summary = initialState.summary ∧
    (handleFileChange s f).clauses = initialState.clauses ∧
    (handleFileChange s f).sumError = initialState.sumError ∧
    (handleFileChange s f).text = "" ∧
    (handleFileChange s f).meta = none ∧
    (handleFileChange s f).error = "" ∧
    (handleFileChange s f).summary = Json.str "" ∧
    (handleFileChange s f).clauses = ([] : List Json) ∧
    (handleFileChange s f).sumError = "" :=
  ⟨rfl, rfl, rfl, rfl, rfl, rfl, rfl, rfl, rfl, rfl, rfl, rfl, rfl⟩

/-- Claim C4: for every uploaded file whose extension is neither pdf nor
docx, `extract` fails with `UnsupportedFormat` carrying the declared
extension, and the upload endpoint maps this to a client-error response
with a `detail` message. -/
theorem c4_unsupported_format (f : UploadFile)
    (h : detectType (extOf f.filename) = none) :
    extract f = .error (.unsupportedFormat (extOf f.filename)) ∧
    400 ≤ (uploadHandler (some f)).status ∧
    (uploadHandler (some f)).status < 500 ∧
    getField (uploadHandler (some f)).body "detail" =
      .str ("Unsupported file format: ." ++ extOf f.filename) := by
  have he : extract f = .error (.unsupportedFormat (extOf f.filename)) := by
    unfold extract
    rw [h]
  have hu : uploadHandler (some f) =
      { status := 415,
        body := .obj
          [("detail", .str ("Unsupported file format: ." ++ extOf f.filename))] } := by
    unfold uploadHandler
    dsimp only
    rw [he]
  refine ⟨he, ?_, ?_, ?_⟩ <;> rw [hu]
  · show (400 : Nat) ≤ 415
    decide
  · show (415 : Nat) < 500
    decide
  · rfl

theorem c4_unsupported_format_witness :
    detectType (extOf (UploadFile.filename ⟨"contract.txt", .unparsable "x"⟩)) = none ∧
    (extract ⟨"contract.txt", .unparsable "x"⟩ =
        .error (.unsupportedFormat (extOf (UploadFile.filename ⟨"contract.txt", .unparsable "x"⟩))) ∧
     400 ≤ (uploadHandler (some ⟨"contract.txt", .unparsable "x"⟩)).status ∧
     (uploadHandler (some ⟨"contract.txt", .unparsable "x"⟩)).status < 500 ∧
     getField (uploadHandler (some ⟨"contract.txt", .unparsable "x"⟩)).body "detail" =
       .str ("Unsupported file format: ." ++
         extOf (UploadFile.filename ⟨"contract.txt", .unparsable "x"⟩))) :=
  ⟨by decide, c4_unsupported_format ⟨"contract.txt", .unparsable "x"⟩ (by decide)⟩

/-- Claim C5: for every successful extraction the page count is present
exactly when the filetype is pdf and absent for DOCX; the client renders
a page count exactly when the meta filetype is the string "pdf" and the
pages value is neither null nor undefined. -/
theorem c5_pages_only_for_pdf (f : UploadFile) (t : ExtractedText)
    (m : ClientMeta) (hf : extract f = .ok t) :
    (t.pageCount.isSome = true ↔ t.filetype = .pdf) ∧
    (t.filetype = .docx → t.pageCount = none) ∧
    (showsPageCount m = true ↔
      (m.filetype = Json.str "pdf" ∧ m.pages ≠ Json.null ∧ m.pages ≠ Json.undefined)) := by
  have hserver : (t.pageCount.isSome = true ↔ t.filetype = Filetype.pdf) ∧
      (t.filetype = Filetype.docx → t.pageCount = none) := by
    unfold extract at hf
    split at hf
    · exact absurd hf (by simp)
    · split at hf
      · injection hf with h
        subst h
        exact ⟨by simp, by simp⟩
      · exact absurd hf (by simp)
    · split at hf
      · injection hf with h
        subst h
        exact ⟨by simp, by simp⟩
      · exact absurd hf (by simp)
  refine ⟨hserver.1, hserver.2, ?_⟩
  rcases m with ⟨fn, ft, pg⟩
  unfold showsPageCount
  cases ft <;> cases pg <;> simp

theorem c5_pages_only_for_pdf_witness :
    extract ⟨"lease.pdf", .pdf ["Tenant shall pay rent."]⟩ =
      .ok { text := "Tenant shall pay rent.", filetype := .pdf,
            pageCount := some 1 } ∧
    ((ExtractedText.pageCount
        { text := "Tenant shall pay rent.", filetype := .pdf,
          pageCount := some 1 }).isSome = true ↔
      ExtractedText.filetype
        { text := "Tenant shall pay rent.", filetype := .pdf,
          pageCount := some 1 } = .pdf) ∧
    (ExtractedText.filetype
        { text := "Tenant shall pay rent.", filetype := .pdf,
          pageCount := some 1 } = .docx →
      ExtractedText.pageCount
        { text := "Tenant shall pay rent.", filetype := .pdf,
          pageCount := some 1 } = none) ∧
    (showsPageCount ⟨Json.str "lease.pdf", Json.str "pdf", Json.num 1⟩ = true ↔
      (ClientMeta.filetype ⟨Json.str "lease.pdf", Json.str "pdf", Json.num 1⟩ =
          Json.str "pdf" ∧
       ClientMeta.pages ⟨Json.str "lease.pdf", Json.str "pdf", Json.num 1⟩ ≠
          Json.null ∧
       ClientMeta.pages ⟨Json.str "lease.pdf", Json.str "pdf", Json.num 1⟩ ≠
          Json.undefined)) :=
  ⟨rfl,
   c5_pages_only_for_pdf ⟨"lease.pdf", .pdf ["Tenant shall pay rent."]⟩
     { text := "Tenant shall pay rent.", filetype := .pdf, pageCount := some 1 }
     ⟨Json.str "lease.pdf", Json.str "pdf", Json.num 1⟩ rfl⟩

/-- Claim C8: a parseable PDF whose pages carry no extractable text is
not an error: `extract` succeeds with empty text and a page count equal
to the physical page count. -/
theorem c8_scanned_pdf_ok (f : UploadFile) (pages : List String)
    (h1 : f.content = .pdf pages)
    (h2 : detectType (extOf f.filename) = some .pdf)
    (h3 : ∀ p ∈ pages, p = "") :
    extract f =
      .ok { text := "", filetype := .pdf, pageCount := some pages.length } := by
  unfold extract
  rw [h2, h1]
  exact congrArg
    (fun s =>
      (Except.ok
          { text := s, filetype := Filetype.pdf, pageCount := some pages.length } :
        Except ExtractError ExtractedText))
    (normalize_joinPages_all_empty h3)

theorem c8_scanned_pdf_ok_witness :
    UploadFile.content ⟨"scan.pdf", .pdf ["", ""]⟩ = .pdf ["", ""] ∧
    detectType (extOf (UploadFile.filename ⟨"scan.pdf", .pdf ["", ""]⟩)) = some .pdf ∧
    (∀ p ∈ ["", ""], p = "") ∧
    extract ⟨"scan.pdf", .pdf ["", ""]⟩ =
      .ok { text := "", filetype := .pdf, pageCount := some 2 } :=
  ⟨rfl, by decide, by decide,
   c8_scanned_pdf_ok ⟨"scan.pdf", .pdf ["", ""]⟩ ["", ""] rfl (by decide) (by decide)⟩

end Veris
